import Mathlib

/-!
Verification of the InfernalForge admission-controlled asynchronous job
gateway.  The definitions below are shallow embeddings of the Python source
(`app.py`, `ai_service.py`, `utils/image_utils.py`): pure fragments become
Lean functions, the mutable module-level dictionaries become explicit state
records, and the HTTP handlers become state-passing functions.  Wall-clock
readings (`time.time()`) are modelled as integers supplied by the trace;
`strftime` outputs are modelled as the formatted strings they produce.
-/

namespace InfernalForge

/-! ## Association-list helpers (Python `dict` semantics) -/

/-- `d.get(k)` on a Python dict modelled as an association list. -/
def lookupA {κ β : Type} [DecidableEq κ] : List (κ × β) → κ → Option β
  | [], _ => none
  | (k, v) :: rest, k' => if k = k' then some v else lookupA rest k'

/-- `d[k] = v` on a Python dict: replace the existing binding or append. -/
def setA {κ β : Type} [DecidableEq κ] : List (κ × β) → κ → β → List (κ × β)
  | [], k, v => [(k, v)]
  | (k0, v0) :: rest, k, v =>
    if k0 = k then (k, v) :: rest else (k0, v0) :: setA rest k v

/-- In-place mutation `f` of the value bound at `k` (as `d[k]['field'] = x`
does on a present key; the sources only mutate keys they created). -/
def updateA {κ β : Type} [DecidableEq κ] (f : β → β) : List (κ × β) → κ → List (κ × β)
  | [], _ => []
  | (k0, v0) :: rest, k =>
    if k0 = k then (k0, f v0) :: rest else (k0, v0) :: updateA f rest k

/-! ## Image file naming (`utils/image_utils.py`)

`save_image` (lines 70-97) builds the saved filename from the prompt and a
`datetime.now().strftime("%Y%m%d-%H%M%S")` reading taken at save time;
`process_image` (lines 114-154) rebuilds the filename from a second
`datetime.now()` reading taken after the save and returns that rebuilt path.
The two clock readings are modelled by the formatted strings they produce. -/

/-- Characters removed by `re.sub(r'[<>:"/\\|?*(){}]', '', ...)`. -/
def strippedChars : List Char :=
  ['<', '>', ':', '"', '/', '\\', '|', '?', '*', '(', ')', '\x7b', '\x7d']

/-- `sanitized_prompt`: strip forbidden characters from the first ten
characters of the prompt, then replace spaces with underscores
(`image_utils.py` lines 85-86 and, duplicated, lines 142-143). -/
def sanitizePrompt (prompt : String) : List Char :=
  ((prompt.data.take 10).filter (fun c => decide (c ∉ strippedChars))).map
    (fun c => if c = ' ' then '_' else c)

/-- `f'{sanitized_prompt}-{now:%Y%m%d-%H%M%S}.png'` for a given formatted
clock reading. -/
def timestampedName (prompt : String) (fmt : String) : String :=
  String.mk (sanitizePrompt prompt) ++ "-" ++ fmt ++ ".png"

/-- The path `save_image` actually saves to: `os.path.join(output_path,
filename)` with the filename built from the clock reading at save time
(`image_utils.py` lines 89-90). -/
def save_image_path (prompt outdir fmtAtSave : String) : String :=
  outdir ++ "/" ++ timestampedName prompt fmtAtSave

/-- The path `process_image` returns (and `process_job` then stores in the
artifact mapping): the filename is recomputed from a second clock reading
taken after the save (`image_utils.py` lines 142-145). -/
def process_image_path (prompt outdir fmtAtReturn : String) : String :=
  outdir ++ "/" ++ timestampedName prompt fmtAtReturn

/-! ## Artifact serving (`ai_service.py` lines 213-247)

The Flask route is `/output/<uuid:file_id>`: the URL segment must match the
UUID converter's shape or routing rejects the request with 404 before the
handler runs.  The handler then performs a pure lookup of the identifier in
the `file_mapping` dict; only the stored relative path is ever joined to the
configured upload folder.  The filesystem is abstracted to an existence
predicate. -/

def isHexDigit (c : Char) : Bool :=
  c.isDigit || ('a' ≤ c && c ≤ 'f') || ('A' ≤ c && c ≤ 'F')

/-- Shape accepted by the Werkzeug `uuid` route converter:
8-4-4-4-12 hexadecimal digits separated by dashes. -/
def uuidShape (s : String) : Bool :=
  match s.data.splitOn '-' with
  | [a, b, c, d, e] =>
    a.length == 8 && b.length == 4 && c.length == 4 && d.length == 4 &&
    e.length == 12 && (a ++ b ++ c ++ d ++ e).all isHexDigit
  | _ => false

inductive ServeResult : Type
  | notFound
  | served (path : String)
  deriving DecidableEq, Repr

/-- `serve_image` of the AI service: 404 when routing rejects the segment,
404 when the identifier is not in `file_mapping`, 404 when the mapped file
does not exist, otherwise serve the file at the server-side stored path
joined under the upload folder. -/
def serve_image (uploadFolder : String) (file_mapping : List (String × String))
    (fileExists : String → Bool) (file_id : String) : ServeResult :=
  if ¬ uuidShape file_id then .notFound
  else
    match lookupA file_mapping file_id with
    | none => .notFound
    | some actual_path =>
      let full_path := uploadFolder ++ "/" ++ actual_path
      if fileExists full_path then .served full_path else .notFound

/-! ## Rate limiter (`app.py` lines 44-153)

The module-level dictionaries `user_request_times` (a `defaultdict(list)`)
and `user_concurrent_jobs` (a `defaultdict(int)`) are modelled as total
functions with defaults `[]` and `0`; deleting a user whose pruned timestamp
list is empty (`app.py` line 116) is the identity on this functional view.
The user-id type `U` is an arbitrary finite type of the session identifiers
occurring in a run (finiteness gives the sum in `total_requests`). -/

def RATE_LIMIT_WINDOW : Int := 60
def MAX_REQUESTS_PER_USER : Nat := 3
def MAX_CONCURRENT_JOBS : Int := 2
def GLOBAL_RATE_LIMIT : Nat := 10

structure RateState (U : Type) where
  times : U → List Int
  concurrent : U → Int
  last_cleanup : Int

/-- The rate-limiter state at interpreter start: empty dicts,
`last_cleanup = time.time()` at import (`app.py` lines 50-52). -/
def rlInit (U : Type) (t0 : Int) : RateState U :=
  { times := fun _ => [], concurrent := fun _ => 0, last_cleanup := t0 }

/-- `cleanup_old_requests` (`app.py` lines 97-117): a no-op within ten
seconds of the previous cleanup, otherwise prune every user's timestamps to
those strictly newer than `current_time - RATE_LIMIT_WINDOW`. -/
def cleanup_old_requests {U : Type} (now : Int) (s : RateState U) : RateState U :=
  if now - s.last_cleanup < 10 then s
  else
    { times := fun u => (s.times u).filter (fun t => decide (now - RATE_LIMIT_WINDOW < t)),
      concurrent := s.concurrent,
      last_cleanup := now }

/-- `sum(len(times) for times in user_request_times.values())`. -/
def totalRequests {U : Type} [Fintype U] (s : RateState U) : Nat :=
  ∑ u : U, (s.times u).length

def rateMsg : String :=
  "Rate limit exceeded. Please wait 60 seconds between requests."
def concMsg : String :=
  "Too many concurrent jobs. Please wait for your current generations to complete."
def busyMsg : String :=
  "Server is busy. Please try again later."

/-- `check_rate_limit` (`app.py` lines 119-148): opportunistic cleanup, then
the per-user window count, the per-user concurrent count, and the global
window count are tested in that order; on success the current timestamp is
appended and the concurrent counter incremented.  The caller has already
established the session, so the user id is passed directly. -/
def check_rate_limit {U : Type} [DecidableEq U] [Fintype U]
    (now : Int) (u : U) (s : RateState U) : (Bool × String) × RateState U :=
  let s1 := cleanup_old_requests now s
  let user_requests := s1.times u
  if MAX_REQUESTS_PER_USER ≤ user_requests.length then
    ((false, rateMsg), s1)
  else if MAX_CONCURRENT_JOBS ≤ s1.concurrent u then
    ((false, concMsg), s1)
  else if GLOBAL_RATE_LIMIT ≤ totalRequests s1 then
    ((false, busyMsg), s1)
  else
    ((true, ""),
      { times := Function.update s1.times u (user_requests ++ [now]),
        concurrent := Function.update s1.concurrent u (s1.concurrent u + 1),
        last_cleanup := s1.last_cleanup })

/-- `rate_limit_complete` (`app.py` lines 150-153):
`user_concurrent_jobs[user_id] = max(0, user_concurrent_jobs[user_id] - 1)`. -/
def rate_limit_complete {U : Type} [DecidableEq U] (u : U) (s : RateState U) : RateState U :=
  { s with concurrent := Function.update s.concurrent u (max 0 (s.concurrent u - 1)) }

/-! ## Request bodies and validation

A JSON field value is classified by whether Python's `int(...)` succeeds on
it: `asInt n` stands for any value `int` converts to `n` (ints, numeric
strings), `failsInt r` for any value on which `int` raises `ValueError`,
with `r` the text that ends up in the error message.  Prompts are strings
(the sources call `.strip()` on them). -/

inductive PyVal : Type
  | asInt (n : Int)
  | failsInt (r : String)
  deriving DecidableEq, Repr

/-- `int(value)` with a default for an absent key:
`int(data.get('height', 512))` and friends. -/
def pyInt (v : Option PyVal) (dflt : Int) : Except String Int :=
  match v with
  | none => .ok dflt
  | some (.asInt n) => .ok n
  | some (.failsInt r) => .error r

/-- The JSON body of a `/generate` request (`user_id` is attached separately
by the gateway before forwarding, mirroring `data['user_id'] = session['user_id']`). -/
structure ReqBody where
  prompt : Option String
  height : Option PyVal
  width : Option PyVal
  num_inference_steps : Option PyVal
  seed : Option PyVal
  deriving DecidableEq, Repr

/-- Python `str.strip()` on the character list of a string. -/
def pyStrip (s : String) : List Char :=
  ((s.data.dropWhile Char.isWhitespace).reverse.dropWhile Char.isWhitespace).reverse

/-- `validate_request_data` of the public tier (`app.py` lines 72-95):
prompt presence and length, then dimensions, then step count; `int`
conversion failures surface as "Invalid input format".  There is no
character-set check on this tier. -/
def validate_request_data (d : ReqBody) : Bool × String :=
  let prompt := pyStrip (d.prompt.getD "")
  if prompt = [] then (false, "Prompt is required")
  else if 200 < prompt.length then (false, "Prompt too long")
  else
    match pyInt d.height 512 with
    | .error e => (false, "Invalid input format: " ++ e)
    | .ok height =>
      match pyInt d.width 512 with
      | .error e => (false, "Invalid input format: " ++ e)
      | .ok width =>
        if ¬ (64 ≤ height ∧ height ≤ 1024 ∧ 64 ≤ width ∧ width ≤ 1024) then
          (false, "Invalid dimensions")
        else
          match pyInt d.num_inference_steps 50 with
          | .error e => (false, "Invalid input format: " ++ e)
          | .ok steps =>
            if ¬ (1 ≤ steps ∧ steps ≤ 100) then (false, "Invalid number of steps")
            else (true, "")

/-- `ALLOWED_CHARS = re.compile(r'^[a-zA-Z0-9\s\-_.,!?()]+$')`
(`ai_service.py` line 62): letters, digits, whitespace and the listed
punctuation. -/
def allowedChar (c : Char) : Bool :=
  c.isAlpha || c.isDigit || c.isWhitespace ||
    decide (c ∈ ['-', '_', '.', ',', '!', '?', '(', ')'])

/-- `validate_input` of the AI service (`ai_service.py` lines 111-162).
Session user ids are `str(uuid.uuid4())` strings, which always match the
UUID regex of line 146; the format test on an arbitrary user-id type is
abstracted as the predicate `validU`. -/
def validate_input {U : Type} (validU : U → Bool) (d : ReqBody) (u : U) : Bool × String :=
  let prompt := pyStrip (d.prompt.getD "")
  if prompt = [] then (false, "Prompt is required")
  else if 200 < prompt.length then (false, "Prompt too long (max 200 characters)")
  else if ¬ prompt.all allowedChar then (false, "Prompt contains invalid characters")
  else
    match pyInt d.height 512 with
    | .error e => (false, "Invalid input format: " ++ e)
    | .ok height =>
      match pyInt d.width 512 with
      | .error e => (false, "Invalid input format: " ++ e)
      | .ok width =>
        if ¬ (64 ≤ height ∧ height ≤ 1024 ∧ 64 ≤ width ∧ width ≤ 1024) then
          (false, "Dimensions must be between 64 and 1024")
        else
          match pyInt d.num_inference_steps 50 with
          | .error e => (false, "Invalid input format: " ++ e)
          | .ok steps =>
            if ¬ (1 ≤ steps ∧ steps ≤ 100) then
              (false, "Steps must be between 1 and 100")
            else if ¬ validU u then (false, "Invalid user ID format")
            else
              match d.seed with
              | none => (true, "")
              | some v =>
                match pyInt (some v) 0 with
                | .error _ => (false, "Seed must be a valid integer")
                | .ok n =>
                  if ¬ (0 ≤ n ∧ n ≤ 2 ^ 32 - 1) then (false, "Invalid seed value")
                  else (true, "")

/-! ## Job store and artifact registry (`ai_service.py` lines 44-54) -/

inductive JobStatus : Type
  | processing
  | completed
  | failed
  deriving DecidableEq, Repr

/-- One entry of the `jobs` dict.  `user` is `data['user_id']` inside the
stored request data; `result`/`error` are the fields `process_job` adds. -/
structure Job (U : Type) where
  status : JobStatus
  started_at : Int
  user : U
  result : Option (String × Int)
  error : Option String
  deriving DecidableEq, Repr

/-- The AI service's mutable module state: the `jobs` dict and the
`file_mapping` dict. -/
structure AIState (U : Type) where
  jobs : List (String × Job U)
  file_mapping : List (String × String)
  deriving DecidableEq, Repr

def emptyAI (U : Type) : AIState U := { jobs := [], file_mapping := [] }

/-- The `jobs[job_id] = {'status': 'processing', 'started_at': time.time(),
'data': data}` entry created by `/generate` (`ai_service.py` lines 266-271). -/
def newJob {U : Type} (u : U) (t : Int) : Job U :=
  { status := .processing, started_at := t, user := u, result := none, error := none }

/-- Outcome of the long-running compute step invoked by `process_job`:
either `process_image` returns a (relative) artifact path and a seed, or it
raises, with `err` the stringified exception. -/
inductive WorkerOutcome : Type
  | success (relPath : String) (seed : Int)
  | failure (err : String)
  deriving DecidableEq, Repr

/-- The terminal write `process_job` performs on its job's entry: on success
`status = 'completed'` with the result dict (whose `image_path` is
`/output/{job_id}`), on an exception `status = 'failed'` with the error
text (`ai_service.py` lines 199-211). -/
def applyOutcome {U : Type} (job_id : String) (o : WorkerOutcome) (j : Job U) : Job U :=
  match o with
  | .success _ seed =>
    { j with status := .completed, result := some ("/output/" ++ job_id, seed) }
  | .failure err => { j with status := .failed, error := some err }

/-- The completion half of `process_job` (`ai_service.py` lines 174-211):
on success store the UUID-to-path mapping and transition the job to
`completed` with its result; on any exception transition it to `failed`
with the stringified error. -/
def process_job_finish {U : Type} (job_id : String) (o : WorkerOutcome)
    (ai : AIState U) : AIState U :=
  { jobs := updateA (applyOutcome job_id o) ai.jobs job_id,
    file_mapping :=
      match o with
      | .success relPath _ => setA ai.file_mapping job_id relPath
      | .failure _ => ai.file_mapping }

/-- Wire responses, with the fields the handlers populate. -/
structure HResp where
  code : Nat
  success : Option Bool := none
  error : Option String := none
  job_id : Option String := none
  status : Option String := none
  started_at : Option Int := none
  image_path : Option String := none
  seed : Option Int := none
  deriving DecidableEq, Repr

/-- `/generate` of the AI service (`ai_service.py` lines 249-287): reject a
body without prompt or user id, validate, then create the job entry in
`processing`, start the worker thread, and return
`{success: True, job_id, status: 'processing'}` immediately.  The returned
flag records that a background execution unit was spawned; its outcome is
applied later by `process_job_finish` and contributes nothing here. -/
def ai_generate {U : Type} [DecidableEq U] (validU : U → Bool) (d : ReqBody) (u : U)
    (job_id : String) (now : Int) (ai : AIState U) : HResp × AIState U × Bool :=
  if d.prompt = none then
    ({ code := 400, error := some "Missing required fields" }, ai, false)
  else
    match validate_input validU d u with
    | (false, msg) => ({ code := 400, error := some msg }, ai, false)
    | (true, _) =>
      ({ code := 200, success := some true, job_id := some job_id,
         status := some "processing" },
       { ai with jobs := setA ai.jobs job_id (newJob u now) }, true)

/-- `/status/<job_id>` of the AI service (`ai_service.py` lines 289-312). -/
def get_job_status {U : Type} (job_id : String) (ai : AIState U) : HResp :=
  match lookupA ai.jobs job_id with
  | none => { code := 404, error := some "Job not found" }
  | some j =>
    match j.status with
    | .processing => { code := 200, status := some "processing", started_at := some j.started_at }
    | .completed =>
      { code := 200, status := some "completed", started_at := some j.started_at,
        job_id := some job_id, image_path := (j.result.map Prod.fst),
        seed := (j.result.map Prod.snd) }
    | .failed =>
      { code := 200, status := some "failed", started_at := some j.started_at,
        error := j.error }

/-! ## The public gateway's `/generate` handler (`app.py` lines 202-276)

The handler checks the session, runs `check_rate_limit` (which already
mutates the rate state on admission), rejects an empty body, and then inside
a `try`/`finally` validates the body, forwards it to the AI service, and
translates the reply; the `finally` calls `rate_limit_complete` exactly when
the `try` block was entered.  `requests.post` either delivers the request
and returns the AI-service response, times out after delivery, or fails to
connect; a non-2xx reply makes `raise_for_status` raise an `HTTPError`
(a `RequestException`), which the handler turns into a 500.  Texts of
transport-level exceptions are abstracted. -/

inductive NetBehavior : Type
  | ok
  | timeoutAfterDelivery
  | connError
  deriving DecidableEq, Repr

/-- A `jsonify({'success': False, 'error': msg}), code` response. -/
def failResp (code : Nat) (msg : String) : HResp :=
  { code := code, success := some false, error := some msg }

/-- Result of one run of the handler: the wire response, both tiers' states
after the run, how many times `rate_limit_complete` ran, and the id of the
job the AI service created, if any. -/
structure GWResult (U : Type) where
  resp : HResp
  rs : RateState U
  ai : AIState U
  decrements : Nat
  created : Option String

def generate_image {U : Type} [DecidableEq U] [Fintype U] (validU : U → Bool)
    (session : Option U) (body : Option ReqBody) (now : Int) (job_id : String)
    (net : NetBehavior) (rs : RateState U) (ai : AIState U) : GWResult U :=
  match session with
  | none =>
    { resp := failResp 401 "No user session found",
      rs := rs, ai := ai, decrements := 0, created := none }
  | some u =>
    match check_rate_limit now u rs with
    | ((can_proceed, rate_limit_error), rs1) =>
      if ¬ can_proceed then
        { resp := failResp 429 rate_limit_error,
          rs := rs1, ai := ai, decrements := 0, created := none }
      else
        match body with
        | none =>
          -- `if not data: return 400` runs before the `try`/`finally`,
          -- so the admitted capacity is not released on this path.
          { resp := failResp 400 "No data provided",
            rs := rs1, ai := ai, decrements := 0, created := none }
        | some d =>
          match validate_request_data d with
          | (false, msg) =>
            { resp := failResp 400 msg,
              rs := rate_limit_complete u rs1, ai := ai, decrements := 1, created := none }
          | (true, _) =>
            match net with
            | .connError =>
              { resp := failResp 500 "Error communicating with AI service",
                rs := rate_limit_complete u rs1, ai := ai, decrements := 1, created := none }
            | .timeoutAfterDelivery =>
              match ai_generate validU d u job_id now ai with
              | (_, ai1, spawned) =>
                { resp := failResp 504 "Request timed out",
                  rs := rate_limit_complete u rs1, ai := ai1, decrements := 1,
                  created := if spawned then some job_id else none }
            | .ok =>
              match ai_generate validU d u job_id now ai with
              | (iresp, ai1, spawned) =>
                if iresp.code ≠ 200 then
                  { resp := failResp 500 "Error communicating with AI service",
                    rs := rate_limit_complete u rs1, ai := ai1, decrements := 1, created := none }
                else if iresp.success = some true then
                  { resp := iresp, rs := rate_limit_complete u rs1, ai := ai1,
                    decrements := 1, created := if spawned then some job_id else none }
                else
                  { resp := failResp 500 ((iresp.error.getD "Unknown error")),
                    rs := rate_limit_complete u rs1, ai := ai1, decrements := 1,
                    created := if spawned then some job_id else none }

/-! ## Whole-system traces

A trace interleaves gateway `/generate` runs (which are short: the AI
service replies immediately) with completions of the background worker
threads.  The worker never touches the gateway's rate-limiter state: the two
live in different processes. -/

inductive SysEvent (U : Type) : Type
  | submit (session : Option U) (body : Option ReqBody) (t : Int) (job_id : String)
      (net : NetBehavior)
  | finish (job_id : String) (o : WorkerOutcome)

def sysStep {U : Type} [DecidableEq U] [Fintype U] (validU : U → Bool)
    (st : RateState U × AIState U) : SysEvent U → RateState U × AIState U
  | .submit sess body t job_id net =>
    let r := generate_image validU sess body t job_id net st.1 st.2
    (r.rs, r.ai)
  | .finish job_id o => (st.1, process_job_finish job_id o st.2)

def sysRun {U : Type} [DecidableEq U] [Fintype U] (validU : U → Bool)
    (st : RateState U × AIState U) : List (SysEvent U) → RateState U × AIState U
  | [] => st
  | e :: rest => sysRun validU (sysStep validU st e) rest

/-- The number of jobs owned by `u` whose status is `processing`. -/
def processingCount {U : Type} [DecidableEq U] (u : U) (ai : AIState U) : Nat :=
  (ai.jobs.filter (fun p => decide (p.2.user = u) && decide (p.2.status = .processing))).length

/-! ## Rate-limiter traces

For the admission-count invariants only the rate limiter matters, so we also
give it a standalone trace semantics: `check u t` is one `check_rate_limit`
call at clock reading `t`, `release u` one `rate_limit_complete` call.
Clock readings never decrease along a run (`chrono`). -/

inductive RLEvent (U : Type) : Type
  | check (u : U) (t : Int)
  | release (u : U)

def rlStep {U : Type} [DecidableEq U] [Fintype U] (s : RateState U) :
    RLEvent U → RateState U
  | .check u t => (check_rate_limit t u s).2
  | .release u => rate_limit_complete u s

def rlRun {U : Type} [DecidableEq U] [Fintype U] (s : RateState U) :
    List (RLEvent U) → RateState U
  | [] => s
  | e :: rest => rlRun (rlStep s e) rest

/-- Clock readings are nondecreasing and start no earlier than `c` (the
reading taken when the module loaded, stored in `last_cleanup`). -/
def chrono {U : Type} : Int → List (RLEvent U) → Bool
  | _, [] => true
  | c, .check _ t :: rest => decide (c ≤ t) && chrono t rest
  | c, .release _ :: rest => chrono c rest

/-- The admissions of a run: the `(user, time)` pairs of the `check` events
that `check_rate_limit` allowed, in order. -/
def admitted {U : Type} [DecidableEq U] [Fintype U] (s : RateState U) :
    List (RLEvent U) → List (U × Int)
  | [] => []
  | .check u t :: rest =>
    (if (check_rate_limit t u s).1.1 then [(u, t)] else []) ++
      admitted (rlStep s (.check u t)) rest
  | .release u :: rest => admitted (rlStep s (.release u)) rest

/-- How many admissions of user `u` fall in the window `(w, w + 60]`. -/
def userWinCount {U : Type} [DecidableEq U] (u : U) (w : Int)
    (log : List (U × Int)) : Nat :=
  log.countP (fun e => decide (e.1 = u) && (decide (w < e.2) && decide (e.2 ≤ w + 60)))

/-- How many admissions (of any user) fall in the window `(w, w + 60]`. -/
def winCount {U : Type} (w : Int) (log : List (U × Int)) : Nat :=
  log.countP (fun e => decide (w < e.2) && decide (e.2 ≤ w + 60))

/-! ## Job-store traces

For the job lifecycle only the AI service's `jobs` dict matters.  A trace
event is either the entry creation performed by `/generate`
(`ai_service.py` lines 266-271) or the single terminal write of the worker
thread that `/generate` spawned for the job (`process_job`).  Job ids are
`str(uuid.uuid4())`, assumed collision-free, so creations carry pairwise
distinct ids; `/generate` spawns exactly one `process_job` thread per
created job and `process_job` writes the terminal state exactly once, so
terminal writes also carry pairwise distinct ids. -/

inductive JSEvent (U : Type) : Type
  | create (job_id : String) (u : U) (t : Int)
  | finish (job_id : String) (o : WorkerOutcome)

def jsStep {U : Type} (ai : AIState U) : JSEvent U → AIState U
  | .create job_id u t => { ai with jobs := setA ai.jobs job_id (newJob u t) }
  | .finish job_id o => process_job_finish job_id o ai

def jsRun {U : Type} (ai : AIState U) : List (JSEvent U) → AIState U
  | [] => ai
  | e :: rest => jsRun (jsStep ai e) rest

def createIds {U : Type} (evs : List (JSEvent U)) : List String :=
  evs.filterMap (fun e => match e with | .create jid _ _ => some jid | _ => none)

def finishIds {U : Type} (evs : List (JSEvent U)) : List String :=
  evs.filterMap (fun e => match e with | .finish jid _ => some jid | _ => none)

/-- Well-formedness of a job-store trace: fresh ids at creation and one
terminal write per job. -/
def jsWF {U : Type} (evs : List (JSEvent U)) : Prop :=
  (createIds evs).Nodup ∧ (finishIds evs).Nodup

/-! ## Derived predicates -/

/-- Relation between the live rate-limiter state and the admissions made so
far: every user's stored timestamp list is exactly that user's admitted
timestamps newer than the cutoff of the last cleanup. -/
def INV {U : Type} [DecidableEq U] (s : RateState U) (log : List (U × Int)) : Prop :=
  ∀ u : U, s.times u =
    ((log.filter (fun e => decide (e.1 = u))).map Prod.snd).filter
      (fun t => decide (s.last_cleanup - RATE_LIMIT_WINDOW < t))

/-- Both window bounds as predicates of an admission log. -/
def boundP {U : Type} [DecidableEq U] (log : List (U × Int)) : Prop :=
  ∀ (u : U) (w : Int), userWinCount u w log ≤ MAX_REQUESTS_PER_USER ∧
    winCount w log ≤ GLOBAL_RATE_LIMIT

/-- The wire text of each job status. -/
def statusStr : JobStatus → String
  | .processing => "processing"
  | .completed => "completed"
  | .failed => "failed"

/-! ## Concrete inputs used in the counterexamples and evaluations -/

/-- The single-user universe: a deployment exercised by one session. -/
def oneUser : Unit → Bool := fun _ => true

/-- A well-formed request body: `{"prompt": "a cat"}` with all optional
fields absent. -/
def catBody : ReqBody :=
  { prompt := some "a cat", height := none, width := none,
    num_inference_steps := none, seed := none }

/-- A body whose prompt violates the restricted character set (the `@`
character is outside `ALLOWED_CHARS`) but passes the public tier's
validation. -/
def atBody : ReqBody :=
  { prompt := some "@@@", height := none, width := none,
    num_inference_steps := none, seed := none }

/-- A body without a prompt field: `{}`-like, fails validation. -/
def noPromptBody : ReqBody :=
  { prompt := none, height := none, width := none,
    num_inference_steps := none, seed := none }

/-- A body with a 500-character prompt. -/
def longBody : ReqBody :=
  { prompt := some (String.mk (List.replicate 500 'a')), height := none,
    width := none, num_inference_steps := none, seed := none }

/-- Three submissions by the same session at seconds 0, 1 and 2, each
admitted, forwarded, created as a job and answered immediately; no worker
has finished yet. -/
def threeSubmits : List (SysEvent Unit) :=
  [.submit (some ()) (some catBody) 0 "j1" .ok,
   .submit (some ()) (some catBody) 1 "j2" .ok,
   .submit (some ()) (some catBody) 2 "j3" .ok]

/-- A run in which user `()` is admitted at seconds 41, 42 and 43 (each job
finishing at once), a fourth check at second 100 triggers a cleanup whose
cutoff 40 keeps all three timestamps, and a fifth check happens at
second 104. -/
def staleTrace : List (RLEvent Unit) :=
  [.check () 41, .release (), .check () 42, .release (), .check () 43,
   .release (), .check () 100, .check () 104]

/-- The state just before the check at second 104. -/
def staleState : RateState Unit :=
  rlRun (rlInit Unit 41) (staleTrace.take 7)

/-- A job-store prefix: job `j` is created and its worker faults. -/
def jsPrefix : List (JSEvent Unit) :=
  [.create "j" () 0, .finish "j" (.failure "boom")]

/-- A job-store continuation: an unrelated job `k` is created. -/
def jsSuffix : List (JSEvent Unit) :=
  [.create "k" () 1]

/-! ## Supporting lemmas -/

theorem lookupA_setA {κ β : Type} [DecidableEq κ] (l : List (κ × β)) (k k' : κ) (v : β) :
    lookupA (setA l k v) k' = if k = k' then some v else lookupA l k' := by
  induction l with
  | nil => simp [setA, lookupA]
  | cons p rest ih =>
    obtain ⟨k0, v0⟩ := p
    by_cases h0 : k0 = k
    · subst h0
      by_cases h1 : k0 = k' <;> simp [setA, lookupA, h1]
    · have h0' : k ≠ k0 := fun h => h0 h.symm
      by_cases h1 : k0 = k'
      · subst h1
        simp [setA, lookupA, h0, h0']
      · simp [setA, lookupA, h0, h1, ih]

theorem lookupA_updateA {κ β : Type} [DecidableEq κ] (f : β → β) (l : List (κ × β)) (k k' : κ) :
    lookupA (updateA f l k) k' =
      if k = k' then (lookupA l k').map f else lookupA l k' := by
  induction l with
  | nil => simp [updateA, lookupA]
  | cons p rest ih =>
    obtain ⟨k0, v0⟩ := p
    by_cases h0 : k0 = k
    · subst h0
      by_cases h1 : k0 = k' <;> simp [updateA, lookupA, h1]
    · have h0' : k ≠ k0 := fun h => h0 h.symm
      by_cases h1 : k0 = k'
      · subst h1
        simp [updateA, lookupA, h0, h0']
      · simp [updateA, lookupA, h0, h1, ih]

theorem cleanup_concurrent {U : Type} (now : Int) (s : RateState U) :
    (cleanup_old_requests now s).concurrent = s.concurrent := by
  unfold cleanup_old_requests; split <;> rfl

theorem cleanup_of_recent {U : Type} (now : Int) (s : RateState U)
    (h : now - s.last_cleanup < 10) : cleanup_old_requests now s = s := by
  unfold cleanup_old_requests; simp [h]

theorem check_state_denied {U : Type} [DecidableEq U] [Fintype U]
    (now : Int) (u : U) (s : RateState U)
    (h : (check_rate_limit now u s).1.1 = false) :
    (check_rate_limit now u s).2 = cleanup_old_requests now s := by
  simp only [check_rate_limit] at h ⊢
  split_ifs at h ⊢ <;> simp_all

theorem check_state_allowed {U : Type} [DecidableEq U] [Fintype U]
    (now : Int) (u : U) (s : RateState U)
    (h : (check_rate_limit now u s).1.1 = true) :
    (check_rate_limit now u s).2 =
      { times := Function.update (cleanup_old_requests now s).times u
          ((cleanup_old_requests now s).times u ++ [now]),
        concurrent := Function.update (cleanup_old_requests now s).concurrent u
          ((cleanup_old_requests now s).concurrent u + 1),
        last_cleanup := (cleanup_old_requests now s).last_cleanup } ∧
    ((cleanup_old_requests now s).times u).length < MAX_REQUESTS_PER_USER ∧
    (cleanup_old_requests now s).concurrent u < MAX_CONCURRENT_JOBS ∧
    totalRequests (cleanup_old_requests now s) < GLOBAL_RATE_LIMIT := by
  simp only [check_rate_limit] at h ⊢
  split_ifs at h ⊢ with h1 h2 h3
  exact ⟨rfl, Nat.lt_of_not_le h1, lt_of_not_le h2, Nat.lt_of_not_le h3⟩

/-! ## The admitted-request window invariant -/

theorem length_times_of_INV {U : Type} [DecidableEq U] {s : RateState U}
    {log : List (U × Int)} (h : INV s log) (u : U) :
    (s.times u).length =
      log.countP (fun e =>
        decide (s.last_cleanup - RATE_LIMIT_WINDOW < e.2) && decide (e.1 = u)) := by
  rw [h u, ← List.countP_eq_length_filter, List.countP_map, List.countP_filter]
  rfl

theorem sum_countP_key {U : Type} [DecidableEq U] [Fintype U]
    (log : List (U × Int)) (p : Int → Bool) :
    ∑ u : U, log.countP (fun e => p e.2 && decide (e.1 = u)) =
      log.countP (fun e => p e.2) := by
  induction log with
  | nil => simp
  | cons e l ih =>
    simp only [List.countP_cons]
    rw [Finset.sum_add_distrib, ih]
    congr 1
    by_cases hp : p e.2 = true
    · simp [hp]
    · simp [hp]

theorem totalRequests_of_INV {U : Type} [DecidableEq U] [Fintype U]
    {s : RateState U} {log : List (U × Int)} (h : INV s log) :
    totalRequests s =
      log.countP (fun e => decide (s.last_cleanup - RATE_LIMIT_WINDOW < e.2)) := by
  unfold totalRequests
  rw [← sum_countP_key log (fun t => decide (s.last_cleanup - RATE_LIMIT_WINDOW < t))]
  exact Finset.sum_congr rfl (fun u _ => length_times_of_INV h u)

theorem INV_cleanup {U : Type} [DecidableEq U] {s : RateState U}
    {log : List (U × Int)} (now : Int) (hINV : INV s log)
    (hlc : s.last_cleanup ≤ now) :
    INV (cleanup_old_requests now s) log ∧
      (cleanup_old_requests now s).last_cleanup ≤ now := by
  unfold cleanup_old_requests
  split_ifs with h
  · exact ⟨hINV, hlc⟩
  · constructor
    · intro u
      show (s.times u).filter _ = _
      rw [hINV u, List.filter_filter]
      apply List.filter_congr
      intro t _
      cases hpn : decide (now - RATE_LIMIT_WINDOW < t) with
      | true =>
        have h1 : now - RATE_LIMIT_WINDOW < t := of_decide_eq_true hpn
        have h2 : s.last_cleanup - RATE_LIMIT_WINDOW < t := by omega
        simp [h1, h2]
      | false => simp [hpn]
    · exact le_refl now

theorem INV_admit {U : Type} [DecidableEq U] [Fintype U] {s : RateState U}
    {log : List (U × Int)} (now : Int) (u : U) (hINV : INV s log)
    (hlc : s.last_cleanup ≤ now)
    (hall : (check_rate_limit now u s).1.1 = true) :
    INV (check_rate_limit now u s).2 (log ++ [(u, now)]) := by
  obtain ⟨hstate, -, -, -⟩ := check_state_allowed now u s hall
  obtain ⟨hINV1, hlc1⟩ := INV_cleanup now hINV hlc
  rw [hstate]
  intro v
  by_cases hv : v = u
  · subst hv
    simp only [Function.update_same, List.filter_append, List.map_append,
      List.filter_append]
    rw [hINV1 v]
    congr 1
    have hpass : s.last_cleanup ≤ (cleanup_old_requests now s).last_cleanup ∨ True := Or.inr trivial
    have h1 : decide (((v, now) : U × Int).1 = v) = true := by simp
    have h2 : (cleanup_old_requests now s).last_cleanup - RATE_LIMIT_WINDOW < now := by
      unfold RATE_LIMIT_WINDOW; omega
    simp [h2]
  · have hv' : u ≠ v := fun h => hv h.symm
    simp only [Function.update_noteq hv]
    rw [hINV1 v]
    simp [List.filter_append, hv']

theorem boundP_append_admit {U : Type} [DecidableEq U] [Fintype U]
    (log : List (U × Int)) (u : U) (t lc : Int) (hlc : lc ≤ t)
    (huser : log.countP (fun e =>
        decide (lc - RATE_LIMIT_WINDOW < e.2) && decide (e.1 = u)) <
      MAX_REQUESTS_PER_USER)
    (hglob : log.countP (fun e => decide (lc - RATE_LIMIT_WINDOW < e.2)) <
      GLOBAL_RATE_LIMIT)
    (hbd : boundP log) : boundP (log ++ [(u, t)]) := by
  intro v w
  constructor
  · unfold userWinCount
    rw [List.countP_append]
    by_cases hin : v = u ∧ w < t ∧ t ≤ w + 60
    · obtain ⟨hvu, hwt, htw⟩ := hin
      subst hvu
      have hmono : log.countP (fun e =>
            decide (e.1 = v) && (decide (w < e.2) && decide (e.2 ≤ w + 60))) ≤
          log.countP (fun e =>
            decide (lc - RATE_LIMIT_WINDOW < e.2) && decide (e.1 = v)) := by
        apply List.countP_mono_left
        intro e he hpe
        simp only [Bool.and_eq_true, decide_eq_true_eq] at hpe ⊢
        unfold RATE_LIMIT_WINDOW
        exact ⟨by omega, hpe.1⟩
      have hone : List.countP (fun e =>
          decide (e.1 = v) && (decide (w < e.2) && decide (e.2 ≤ w + 60)))
            [((v, t) : U × Int)] ≤ 1 := List.countP_le_length _
      have := huser
      unfold MAX_REQUESTS_PER_USER at this ⊢
      omega
    · have hc : (decide (((u, t) : U × Int).1 = v) &&
          (decide (w < ((u, t) : U × Int).2) &&
            decide (((u, t) : U × Int).2 ≤ w + 60))) = false := by
        cases hb : (decide (((u, t) : U × Int).1 = v) &&
            (decide (w < ((u, t) : U × Int).2) &&
              decide (((u, t) : U × Int).2 ≤ w + 60))) with
        | false => rfl
        | true =>
          simp only [Bool.and_eq_true, decide_eq_true_eq] at hb
          exact absurd ⟨hb.1.symm, hb.2⟩ hin
      have hzero : List.countP (fun e =>
          decide (e.1 = v) && (decide (w < e.2) && decide (e.2 ≤ w + 60)))
            [((u, t) : U × Int)] = 0 := by
        simp [List.countP_cons, hc]
      rw [hzero]
      simpa using (hbd v w).1
  · unfold winCount
    rw [List.countP_append]
    by_cases hin : w < t ∧ t ≤ w + 60
    · have hmono : log.countP (fun e =>
            decide (w < e.2) && decide (e.2 ≤ w + 60)) ≤
          log.countP (fun e => decide (lc - RATE_LIMIT_WINDOW < e.2)) := by
        apply List.countP_mono_left
        intro e he hpe
        simp only [Bool.and_eq_true, decide_eq_true_eq] at hpe ⊢
        unfold RATE_LIMIT_WINDOW
        omega
      have hone : List.countP (fun e =>
          decide (w < e.2) && decide (e.2 ≤ w + 60)) [((u, t) : U × Int)] ≤ 1 :=
        List.countP_le_length _
      unfold GLOBAL_RATE_LIMIT at hglob ⊢
      omega
    · have hc : (decide (w < ((u, t) : U × Int).2) &&
          decide (((u, t) : U × Int).2 ≤ w + 60)) = false := by
        cases hb : (decide (w < ((u, t) : U × Int).2) &&
            decide (((u, t) : U × Int).2 ≤ w + 60)) with
        | false => rfl
        | true =>
          simp only [Bool.and_eq_true, decide_eq_true_eq] at hb
          exact absurd hb hin
      have hzero : List.countP (fun e =>
          decide (w < e.2) && decide (e.2 ≤ w + 60)) [((u, t) : U × Int)] = 0 := by
        simp [List.countP_cons, hc]
      rw [hzero]
      simpa using (hbd v w).2

theorem admitted_bound_aux {U : Type} [DecidableEq U] [Fintype U]
    (evs : List (RLEvent U)) :
    ∀ (s : RateState U) (log : List (U × Int)) (c : Int),
      INV s log → s.last_cleanup ≤ c → chrono c evs = true →
      boundP log → boundP (log ++ admitted s evs) := by
  induction evs with
  | nil =>
    intro s log c _ _ _ hbd
    simpa [admitted] using hbd
  | cons e rest ih =>
    intro s log c hINV hlc hch hbd
    cases e with
    | release u =>
      show boundP (log ++ admitted (rlStep s (.release u)) rest)
      refine ih _ log c ?_ hlc ?_ hbd
      · intro v
        exact hINV v
      · exact hch
    | check u t =>
      have hch' : (decide (c ≤ t) && chrono t rest) = true := hch
      rw [Bool.and_eq_true] at hch'
      have hct : c ≤ t := of_decide_eq_true hch'.1
      have hchr := hch'.2
      have hlct : s.last_cleanup ≤ t := le_trans hlc hct
      by_cases hall : (check_rate_limit t u s).1.1 = true
      · obtain ⟨hstate, hlen, hconc, htotal⟩ := check_state_allowed t u s hall
        obtain ⟨hINV1, hlc1⟩ := INV_cleanup t hINV hlct
        have hadm : admitted s (RLEvent.check u t :: rest) =
            (u, t) :: admitted (rlStep s (.check u t)) rest := by
          simp [admitted, hall]
        rw [hadm]
        have hassoc : log ++ (u, t) :: admitted (rlStep s (.check u t)) rest =
            (log ++ [(u, t)]) ++ admitted (rlStep s (.check u t)) rest := by
          simp
        rw [hassoc]
        refine ih _ (log ++ [(u, t)]) t ?_ ?_ hchr ?_
        · exact INV_admit t u hINV hlct hall
        · show (check_rate_limit t u s).2.last_cleanup ≤ t
          rw [hstate]
          exact hlc1
        · refine boundP_append_admit log u t
            (cleanup_old_requests t s).last_cleanup hlc1 ?_ ?_ hbd
          · rw [← length_times_of_INV hINV1 u]
            exact hlen
          · rw [← totalRequests_of_INV hINV1]
            exact htotal
      · have hfalse : (check_rate_limit t u s).1.1 = false := by
          cases hb : (check_rate_limit t u s).1.1
          · rfl
          · exact absurd hb hall
        have hadm : admitted s (RLEvent.check u t :: rest) =
            admitted (rlStep s (.check u t)) rest := by
          simp [admitted, hfalse]
        rw [hadm]
        refine ih _ log t ?_ ?_ hchr hbd
        · show INV (check_rate_limit t u s).2 log
          rw [check_state_denied t u s hfalse]
          exact (INV_cleanup t hINV hlct).1
        · show (check_rate_limit t u s).2.last_cleanup ≤ t
          rw [check_state_denied t u s hfalse]
          exact (INV_cleanup t hINV hlct).2

/-- The two admission bounds, for any chronological run of the rate limiter
from the initial state. -/
theorem admitted_window_bounds {U : Type} [DecidableEq U] [Fintype U]
    (t0 : Int) (evs : List (RLEvent U)) (h : chrono t0 evs = true)
    (u : U) (w : Int) :
    userWinCount u w (admitted (rlInit U t0) evs) ≤ MAX_REQUESTS_PER_USER ∧
    winCount w (admitted (rlInit U t0) evs) ≤ GLOBAL_RATE_LIMIT := by
  have hbase : boundP ([] : List (U × Int)) := by
    intro v w'
    constructor <;>
      simp [userWinCount, winCount, MAX_REQUESTS_PER_USER, GLOBAL_RATE_LIMIT]
  have hINV0 : INV (rlInit U t0) [] := by
    intro v
    simp [rlInit]
  have hmain := admitted_bound_aux evs (rlInit U t0) [] t0 hINV0 (le_refl t0) h hbase
  simpa using hmain u w

/-! ## Job-store stability lemmas -/

theorem get_job_status_status {U : Type} (jid : String) (ai : AIState U) :
    (get_job_status jid ai).status =
      (lookupA ai.jobs jid).map (fun j => statusStr j.status) := by
  unfold get_job_status
  cases h : lookupA ai.jobs jid with
  | none => rfl
  | some j => cases hs : j.status <;> simp [hs, statusStr]

theorem jsRun_append {U : Type} (l₁ l₂ : List (JSEvent U)) (ai : AIState U) :
    jsRun ai (l₁ ++ l₂) = jsRun (jsRun ai l₁) l₂ := by
  induction l₁ generalizing ai with
  | nil => rfl
  | cons e rest ih => exact ih (jsStep ai e)

theorem createIds_append {U : Type} (l₁ l₂ : List (JSEvent U)) :
    createIds (l₁ ++ l₂) = createIds l₁ ++ createIds l₂ := by
  unfold createIds
  exact List.filterMap_append _ _ _

theorem finishIds_append {U : Type} (l₁ l₂ : List (JSEvent U)) :
    finishIds (l₁ ++ l₂) = finishIds l₁ ++ finishIds l₂ := by
  unfold finishIds
  exact List.filterMap_append _ _ _

theorem lookup_jsRun_created {U : Type} (evs : List (JSEvent U)) :
    ∀ (ai : AIState U) (jid : String),
      lookupA (jsRun ai evs).jobs jid ≠ none →
      lookupA ai.jobs jid ≠ none ∨ jid ∈ createIds evs := by
  induction evs with
  | nil =>
    intro ai jid h
    exact Or.inl h
  | cons e rest ih =>
    intro ai jid h
    rcases ih (jsStep ai e) jid h with h1 | h1
    · cases e with
      | create jid' u t =>
        by_cases hj : jid' = jid
        · subst hj
          exact Or.inr (by simp [createIds])
        · left
          have := h1
          rw [show (jsStep ai (JSEvent.create jid' u t)).jobs =
              setA ai.jobs jid' (newJob u t) from rfl, lookupA_setA, if_neg hj] at this
          exact this
      | finish jid' o =>
        left
        have := h1
        rw [show (jsStep ai (JSEvent.finish jid' o)).jobs =
            updateA (applyOutcome jid' o) ai.jobs jid' from rfl,
          lookupA_updateA] at this
        by_cases hj : jid' = jid
        · rw [if_pos hj] at this
          intro hnone
          rw [hnone] at this
          exact this rfl
        · rwa [if_neg hj] at this
    · right
      cases e with
      | create jid' u t => simp [createIds] at h1 ⊢; exact Or.inr h1
      | finish jid' o => simpa [createIds] using h1

theorem terminal_requires_finish {U : Type} (evs : List (JSEvent U)) :
    ∀ (ai : AIState U) (jid : String) (j : Job U),
      lookupA (jsRun ai evs).jobs jid = some j → j.status ≠ .processing →
      (∃ j0, lookupA ai.jobs jid = some j0 ∧ j0.status ≠ .processing) ∨
        jid ∈ finishIds evs := by
  induction evs with
  | nil =>
    intro ai jid j h hterm
    exact Or.inl ⟨j, h, hterm⟩
  | cons e rest ih =>
    intro ai jid j h hterm
    rcases ih (jsStep ai e) jid j h hterm with ⟨j0, hj0, hj0t⟩ | h1
    · cases e with
      | create jid' u t =>
        rw [show (jsStep ai (JSEvent.create jid' u t)).jobs =
            setA ai.jobs jid' (newJob u t) from rfl, lookupA_setA] at hj0
        by_cases hj : jid' = jid
        · rw [if_pos hj] at hj0
          have : j0 = newJob u t := by
            injection hj0.symm
          rw [this] at hj0t
          exact absurd rfl hj0t
        · rw [if_neg hj] at hj0
          exact Or.inl ⟨j0, hj0, hj0t⟩
      | finish jid' o =>
        by_cases hj : jid' = jid
        · subst hj
          exact Or.inr (by simp [finishIds])
        · rw [show (jsStep ai (JSEvent.finish jid' o)).jobs =
              updateA (applyOutcome jid' o) ai.jobs jid' from rfl,
            lookupA_updateA, if_neg hj] at hj0
          exact Or.inl ⟨j0, hj0, hj0t⟩
    · right
      cases e with
      | create jid' u t => simpa [finishIds] using h1
      | finish jid' o => simp [finishIds] at h1 ⊢; exact Or.inr h1

theorem job_terminal_stable {U : Type} (evs : List (JSEvent U)) :
    ∀ (ai : AIState U) (jid : String) (j : Job U),
      lookupA ai.jobs jid = some j →
      jid ∉ createIds evs → jid ∉ finishIds evs →
      lookupA (jsRun ai evs).jobs jid = some j := by
  induction evs with
  | nil =>
    intro ai jid j h _ _
    exact h
  | cons e rest ih =>
    intro ai jid j h hc hf
    cases e with
    | create jid' u t =>
      have hj : jid' ≠ jid := by
        intro hcon
        exact hc (by simp [createIds, hcon])
      refine ih (jsStep ai (JSEvent.create jid' u t)) jid j ?_ ?_ ?_
      · rw [show (jsStep ai (JSEvent.create jid' u t)).jobs =
            setA ai.jobs jid' (newJob u t) from rfl, lookupA_setA, if_neg hj]
        exact h
      · intro hcon
        exact hc (by simp [createIds]; exact Or.inr (by simpa [createIds] using hcon))
      · intro hcon
        exact hf (by simpa [finishIds] using hcon)
    | finish jid' o =>
      have hj : jid' ≠ jid := by
        intro hcon
        exact hf (by simp [finishIds, hcon])
      refine ih (jsStep ai (JSEvent.finish jid' o)) jid j ?_ ?_ ?_
      · rw [show (jsStep ai (JSEvent.finish jid' o)).jobs =
            updateA (applyOutcome jid' o) ai.jobs jid' from rfl,
          lookupA_updateA, if_neg hj]
        exact h
      · intro hcon
        exact hc (by simpa [createIds] using hcon)
      · intro hcon
        exact hf (by simp [finishIds]; exact Or.inr (by simpa [finishIds] using hcon))

/-- Once a job's stored record is terminal after a prefix of a well-formed
trace, the rest of the trace leaves the record unchanged. -/
theorem job_record_stable {U : Type} (l₁ l₂ : List (JSEvent U))
    (jid : String) (j : Job U) (hwf : jsWF (l₁ ++ l₂))
    (h : lookupA (jsRun (emptyAI U) l₁).jobs jid = some j)
    (hterm : j.status ≠ .processing) :
    lookupA (jsRun (emptyAI U) (l₁ ++ l₂)).jobs jid = some j := by
  obtain ⟨hcn, hfn⟩ := hwf
  rw [createIds_append] at hcn
  rw [finishIds_append] at hfn
  have hcreated : jid ∈ createIds l₁ := by
    rcases lookup_jsRun_created l₁ (emptyAI U) jid
        (by rw [h]; exact fun hcon => by cases hcon) with h1 | h1
    · exact absurd rfl h1
    · exact h1
  have hfinished : jid ∈ finishIds l₁ := by
    rcases terminal_requires_finish l₁ (emptyAI U) jid j h hterm with ⟨j0, hj0, _⟩ | h1
    · simp [emptyAI, lookupA] at hj0
    · exact h1
  have hnc : jid ∉ createIds l₂ :=
    fun hcon => (List.disjoint_of_nodup_append hcn) hcreated hcon
  have hnf : jid ∉ finishIds l₂ :=
    fun hcon => (List.disjoint_of_nodup_append hfn) hfinished hcon
  rw [jsRun_append]
  exact job_terminal_stable l₂ _ jid j h hnc hnf

/-! ## The claims -/

/-- C1: the spec claims that for every user the number of jobs with status
`processing` never exceeds the configured concurrent-job maximum (2).  The
code violates this: `rate_limit_complete` is documented as "call this when
a job completes" but runs in the `finally` of the gateway's `/generate`,
i.e. as soon as the *submit round-trip* returns, while the AI service
replies immediately and the job keeps running in the background.  Three
admitted submissions by one user inside a single window therefore leave
three jobs simultaneously in `processing`. -/
theorem claim_C1_eval :
    processingCount ()
        (sysRun oneUser (rlInit Unit 0, emptyAI Unit) threeSubmits).2 = 3 ∧
      MAX_CONCURRENT_JOBS < 3 ∧
      (sysRun oneUser (rlInit Unit 0, emptyAI Unit) threeSubmits).1.concurrent () = 0 := by
  refine ⟨by decide, by decide, by decide⟩

/-- C10: the spec (implicitly, from the code) would need the artifact path
stored for a completed job to equal the path `save_image` actually wrote,
for every pair of clock readings.  `process_image` recomputes the filename
from a second `datetime.now()` reading, so the stored path differs from the
saved path whenever the two readings straddle a second boundary — the first
conjunct exhibits such a pair; the second shows the two coincide exactly
when the readings format identically, which is what the code tacitly
assumes.  This contradicts `process_image`'s own docstring ("Returns: the
file path of the saved image"). -/
theorem claim_C10_eval :
    save_image_path "a cat" "output/u" "20260101-120000" ≠
      process_image_path "a cat" "output/u" "20260101-120001" ∧
    save_image_path "a cat" "output/u" "20260101-120000" =
      process_image_path "a cat" "output/u" "20260101-120000" := by
  exact ⟨by decide, rfl⟩

set_option maxRecDepth 4000 in
/-- C3 (counterexample): the claim says a validation rejection happens
before any state mutation, in particular a 500-character prompt leaves the
Rate Limiter unchanged.  In the code `check_rate_limit` records the
admission timestamp *before* `validate_request_data` runs: the 500-character
prompt is rejected with 400 "Prompt too long" but the user's timestamp list
has gained the entry `[5]`, no longer the empty initial list. -/
theorem claim_C3_counterexample :
    (generate_image oneUser (some ()) (some longBody) 5 "j1" .ok
        (rlInit Unit 0) (emptyAI Unit)).resp = failResp 400 "Prompt too long" ∧
    (generate_image oneUser (some ()) (some longBody) 5 "j1" .ok
        (rlInit Unit 0) (emptyAI Unit)).rs.times () = [5] ∧
    (rlInit Unit 0).times () = [] := by
  refine ⟨by decide, by decide, by decide⟩

/-- C5 (counterexample): the claim says the per-user count consulted is the
count of timestamps within the trailing window, timestamps being pruned to
the window on every check.  Pruning is throttled to once per ten seconds:
after admissions at 41, 42, 43 and a cleanup at 100 (cutoff 40 keeps all
three), a check at 104 consults a list of length 3 — and denies the request
with the per-user message — although zero of those timestamps lie in the
trailing window `(44, 104]`. -/
theorem claim_C5_counterexample :
    chrono 41 staleTrace = true ∧
    (check_rate_limit 104 () staleState).1 = (false, rateMsg) ∧
    ((cleanup_old_requests 104 staleState).times ()).length = 3 ∧
    ((cleanup_old_requests 104 staleState).times ()).filter
      (fun t => decide (104 - RATE_LIMIT_WINDOW < t)) = [] := by
  refine ⟨by decide, by decide, by decide, by decide⟩

/-- C7 (counterexample): the claim says every malformed parameter —
including a prompt violating the restricted character set — yields 400.
The public tier's validator has no character-set check; the internal tier
rejects `"@@@"` with 400, `raise_for_status` turns that reply into a
`RequestException`, and the gateway answers 500, not 400. -/
theorem claim_C7_counterexample :
    (validate_input oneUser atBody ()).1 = false ∧
    (generate_image oneUser (some ()) (some atBody) 0 "j1" .ok
        (rlInit Unit 0) (emptyAI Unit)).resp.code = 500 ∧
    (generate_image oneUser (some ()) (some atBody) 0 "j1" .ok
        (rlInit Unit 0) (emptyAI Unit)).resp.code ≠ 400 := by
  refine ⟨by decide, by decide, by decide⟩

/-- C9: artifact resolution is a pure mapping lookup that never interprets
the caller-supplied identifier as a filesystem path: an identifier that is
not UUID-shaped is rejected by routing, an unregistered identifier yields
404, and when a file is served its path is exactly the server-side stored
relative path joined under the configured output root — the identifier
itself never reaches the filesystem. -/
theorem claim_C9 (root : String) (mapping : List (String × String))
    (fe : String → Bool) (id : String) :
    (uuidShape id = false → serve_image root mapping fe id = .notFound) ∧
    (lookupA mapping id = none → serve_image root mapping fe id = .notFound) ∧
    (∀ p, serve_image root mapping fe id = .served p →
      ∃ rel, lookupA mapping id = some rel ∧ p = root ++ "/" ++ rel ∧
        fe (root ++ "/" ++ rel) = true) := by
  refine ⟨?_, ?_, ?_⟩
  · intro h
    unfold serve_image
    simp [h]
  · intro h
    unfold serve_image
    split_ifs with hu
    · rw [h]
    · rfl
  · intro p hp
    unfold serve_image at hp
    split_ifs at hp with hu
    · cases hl : lookupA mapping id with
      | none =>
        rw [hl] at hp
        simp at hp
      | some rel =>
        rw [hl] at hp
        simp only at hp
        split_ifs at hp with hf
        injection hp with hfull
        exact ⟨rel, rfl, hfull.symm, hf⟩

/-- C9 witness: the path-traversal probe `"../../etc/passwd"` is not
UUID-shaped, hence 404 even with a permissive filesystem. -/
theorem claim_C9_witness :
    uuidShape "../../etc/passwd" = false ∧
    serve_image "output" [] (fun _ => true) "../../etc/passwd" = .notFound :=
  ⟨by decide,
    (claim_C9 "output" [] (fun _ => true) "../../etc/passwd").1 (by decide)⟩

/-- C4: for every valid admitted request, `/generate` on the internal tier
returns `{success: true, job_id, status: "processing"}` computed without any
input from the long-running generation (the worker outcome is applied only
by the later `process_job_finish` step), the background execution unit is
spawned, and at response time the job's stored status is still
`processing`. -/
theorem claim_C4 {U : Type} [DecidableEq U] (validU : U → Bool) (d : ReqBody)
    (u : U) (jid : String) (now : Int) (ai : AIState U)
    (hp : d.prompt ≠ none) (hv : (validate_input validU d u).1 = true) :
    (ai_generate validU d u jid now ai).1 =
      { code := 200, success := some true, job_id := some jid,
        status := some "processing" } ∧
    (ai_generate validU d u jid now ai).2.2 = true ∧
    lookupA (ai_generate validU d u jid now ai).2.1.jobs jid =
      some (newJob u now) ∧
    (newJob u now).status = .processing := by
  rcases hval : validate_input validU d u with ⟨b, m⟩
  rw [hval] at hv
  cases b with
  | false => simp at hv
  | true =>
    unfold ai_generate
    rw [if_neg hp, hval]
    refine ⟨rfl, rfl, ?_, rfl⟩
    show lookupA (setA ai.jobs jid (newJob u now)) jid = some (newJob u now)
    rw [lookupA_setA, if_pos rfl]

/-- C4 witness: a `"a cat"` request on an empty service. -/
theorem claim_C4_witness :
    catBody.prompt ≠ none ∧ (validate_input oneUser catBody ()).1 = true ∧
    (ai_generate oneUser catBody () "j1" 0 (emptyAI Unit)).1 =
      { code := 200, success := some true, job_id := some "j1",
        status := some "processing" } :=
  ⟨by decide, by decide,
    (claim_C4 oneUser catBody () "j1" 0 (emptyAI Unit) (by decide) (by decide)).1⟩

/-- C2: for every admitted job the owner's concurrent-job slot is released
exactly once.  A job exists only if the gateway reached the forward inside
its `try`/`finally`, and the `finally` runs `rate_limit_complete` exactly
once on every exit path of that block — worker success, internal rejection,
timeout and connection fault alike — while no run of the handler ever
releases twice, and the worker's completion path (which runs in the other
process) never touches the gateway's rate state.  A fault raised by the
worker makes `process_job` record status `failed` with the stringified
error. -/
theorem claim_C2 {U : Type} [DecidableEq U] [Fintype U] (validU : U → Bool)
    (sess : Option U) (body : Option ReqBody) (now : Int) (jid : String)
    (net : NetBehavior) (rs : RateState U) (ai : AIState U) (err : String) :
    ((generate_image validU sess body now jid net rs ai).created.isSome →
      (generate_image validU sess body now jid net rs ai).decrements = 1) ∧
    (generate_image validU sess body now jid net rs ai).decrements ≤ 1 ∧
    (∀ jid' o, (sysStep validU (rs, ai) (SysEvent.finish jid' o)).1 = rs) ∧
    (∀ j, lookupA ai.jobs jid = some j →
      lookupA (process_job_finish jid (.failure err) ai).jobs jid =
        some { j with status := .failed, error := some err }) := by
  refine ⟨?_, ?_, fun jid' o => rfl, ?_⟩
  · unfold generate_image
    cases sess with
    | none => simp
    | some u =>
      rcases hcrl : check_rate_limit now u rs with ⟨⟨can, em⟩, rs1⟩
      cases can
      · simp [hcrl]
      · cases body with
        | none => simp [hcrl]
        | some d =>
          rcases hv : validate_request_data d with ⟨vb, msg⟩
          cases vb
          · simp [hcrl, hv]
          · cases net
            · rcases hg : ai_generate validU d u jid now ai with ⟨ir, ai1, sp⟩
              simp only [hcrl, hv, hg]
              split_ifs <;> simp
            · simp [hcrl, hv]
            · simp [hcrl, hv]
  · unfold generate_image
    cases sess with
    | none => simp
    | some u =>
      rcases hcrl : check_rate_limit now u rs with ⟨⟨can, em⟩, rs1⟩
      cases can
      · simp [hcrl]
      · cases body with
        | none => simp [hcrl]
        | some d =>
          rcases hv : validate_request_data d with ⟨vb, msg⟩
          cases vb
          · simp [hcrl, hv]
          · cases net
            · rcases hg : ai_generate validU d u jid now ai with ⟨ir, ai1, sp⟩
              simp only [hcrl, hv, hg]
              split_ifs <;> simp
            · simp [hcrl, hv]
            · simp [hcrl, hv]
  · intro j hj
    show lookupA (updateA (applyOutcome jid (.failure err)) ai.jobs jid) jid = _
    rw [lookupA_updateA, if_pos rfl, hj]
    rfl

/-- C2 witness: a successful `"a cat"` submission creates a job and releases
the slot exactly once. -/
theorem claim_C2_witness :
    (generate_image oneUser (some ()) (some catBody) 0 "j1" .ok
        (rlInit Unit 0) (emptyAI Unit)).created.isSome = true ∧
    (generate_image oneUser (some ()) (some catBody) 0 "j1" .ok
        (rlInit Unit 0) (emptyAI Unit)).decrements = 1 :=
  ⟨by decide,
    (claim_C2 oneUser (some ()) (some catBody) 0 "j1" .ok (rlInit Unit 0)
      (emptyAI Unit) "boom").1 (by decide)⟩

/-- C3 (amended): an authentication failure (missing session) is rejected
with 401 before any state mutation, and a request whose body fails
`validate_request_data` is rejected with 400 and the validator's message,
creates no job and leaves the concurrent counter net unchanged — but only
*after* the rate limiter has recorded the admission timestamp, which
remains in the user's window list. -/
theorem claim_C3_amended {U : Type} [DecidableEq U] [Fintype U]
    (validU : U → Bool) (u : U) (obody : Option ReqBody) (d : ReqBody)
    (msg : String) (now : Int) (jid : String) (net : NetBehavior)
    (rs : RateState U) (ai : AIState U) :
    ((generate_image validU none obody now jid net rs ai).resp.code = 401 ∧
      (generate_image validU none obody now jid net rs ai).rs = rs ∧
      (generate_image validU none obody now jid net rs ai).ai = ai) ∧
    (validate_request_data d = (false, msg) →
      (check_rate_limit now u rs).1.1 = true →
      0 ≤ rs.concurrent u →
      (generate_image validU (some u) (some d) now jid net rs ai).resp =
        failResp 400 msg ∧
      (generate_image validU (some u) (some d) now jid net rs ai).ai = ai ∧
      (generate_image validU (some u) (some d) now jid net rs ai).created = none ∧
      (generate_image validU (some u) (some d) now jid net rs ai).rs.times u =
        (cleanup_old_requests now rs).times u ++ [now] ∧
      (generate_image validU (some u) (some d) now jid net rs ai).rs.concurrent u =
        rs.concurrent u) := by
  constructor
  · exact ⟨rfl, rfl, rfl⟩
  · intro hv hall hpos
    obtain ⟨hstate, -, -, -⟩ := check_state_allowed now u rs hall
    unfold generate_image
    simp only [hall, hv]
    refine ⟨by simp, by simp, by simp, ?_, ?_⟩
    · show (rate_limit_complete u (check_rate_limit now u rs).2).times u = _
      rw [hstate]
      show Function.update (cleanup_old_requests now rs).times u
        ((cleanup_old_requests now rs).times u ++ [now]) u = _
      rw [Function.update_same]
    · show (rate_limit_complete u (check_rate_limit now u rs).2).concurrent u =
        rs.concurrent u
      rw [hstate]
      unfold rate_limit_complete
      simp only [Function.update_same]
      rw [cleanup_concurrent]
      have h1 : rs.concurrent u + 1 - 1 = rs.concurrent u := by omega
      rw [h1]
      exact max_eq_right hpos

/-- C3 amended witness: a body without a prompt, admitted then rejected,
leaves its timestamp in the window list. -/
theorem claim_C3_amended_witness :
    validate_request_data noPromptBody = (false, "Prompt is required") ∧
    (generate_image oneUser (some ()) (some noPromptBody) 0 "j1" .ok
        (rlInit Unit 0) (emptyAI Unit)).rs.times () =
      (cleanup_old_requests 0 (rlInit Unit 0)).times () ++ [0] :=
  ⟨by decide,
    ((claim_C3_amended oneUser () none noPromptBody "Prompt is required" 0 "j1"
        .ok (rlInit Unit 0) (emptyAI Unit)).2
      (by decide) (by decide) (by decide)).2.2.2.1⟩

/-- C5 (amended): the three admission limits are evaluated in the order
per-user window count (≥ 3), per-user in-flight count (≥ 2), global window
count (≥ 10), and the first failing check's reason is the one reported —
but the counts consulted are the *stored* timestamp lists: pruning to the
trailing window happens opportunistically at most once per ten seconds
(`cleanup_old_requests` is the identity within ten seconds of the previous
cleanup), so a check may consult timestamps older than the window. -/
theorem claim_C5_amended {U : Type} [DecidableEq U] [Fintype U]
    (now : Int) (u : U) (s : RateState U) :
    (MAX_REQUESTS_PER_USER ≤ ((cleanup_old_requests now s).times u).length →
      (check_rate_limit now u s).1 = (false, rateMsg)) ∧
    (((cleanup_old_requests now s).times u).length < MAX_REQUESTS_PER_USER →
      MAX_CONCURRENT_JOBS ≤ (cleanup_old_requests now s).concurrent u →
      (check_rate_limit now u s).1 = (false, concMsg)) ∧
    (((cleanup_old_requests now s).times u).length < MAX_REQUESTS_PER_USER →
      (cleanup_old_requests now s).concurrent u < MAX_CONCURRENT_JOBS →
      GLOBAL_RATE_LIMIT ≤ totalRequests (cleanup_old_requests now s) →
      (check_rate_limit now u s).1 = (false, busyMsg)) ∧
    (((cleanup_old_requests now s).times u).length < MAX_REQUESTS_PER_USER →
      (cleanup_old_requests now s).concurrent u < MAX_CONCURRENT_JOBS →
      totalRequests (cleanup_old_requests now s) < GLOBAL_RATE_LIMIT →
      (check_rate_limit now u s).1 = (true, "")) ∧
    (now - s.last_cleanup < 10 → cleanup_old_requests now s = s) ∧
    (¬ now - s.last_cleanup < 10 →
      ∀ t ∈ (cleanup_old_requests now s).times u, now - RATE_LIMIT_WINDOW < t) := by
    refine ⟨?_, ?_, ?_, ?_, ?_, ?_⟩
    · intro h1
      unfold check_rate_limit
      rw [if_pos h1]
    · intro h1 h2
      unfold check_rate_limit
      rw [if_neg (by omega), if_pos h2]
    · intro h1 h2 h3
      unfold check_rate_limit
      rw [if_neg (by omega), if_neg (by omega), if_pos h3]
    · intro h1 h2 h3
      unfold check_rate_limit
      rw [if_neg (by omega), if_neg (by omega), if_neg (by omega)]
    · exact cleanup_of_recent now s
    · intro h t ht
      unfold cleanup_old_requests at ht
      rw [if_neg h] at ht
      have ht' : t ∈ (s.times u).filter
          (fun t => decide (now - RATE_LIMIT_WINDOW < t)) := ht
      exact of_decide_eq_true (List.mem_filter.mp ht').2

/-- C5 amended witness: on a fresh state all three counts are below their
limits and the check admits with an empty reason. -/
theorem claim_C5_amended_witness :
    ((cleanup_old_requests 0 (rlInit Unit 0)).times ()).length <
      MAX_REQUESTS_PER_USER ∧
    (check_rate_limit 0 () (rlInit Unit 0)).1 = (true, "") :=
  ⟨by decide,
    (claim_C5_amended 0 () (rlInit Unit 0)).2.2.2.1
      (by decide) (by decide) (by decide)⟩

/-- C6: over every chronological run of the rate limiter, every window
`(w, w + 60]` contains at most `MAX_REQUESTS_PER_USER` (3) admissions of
any single user and at most `GLOBAL_RATE_LIMIT` (10) admissions in total:
stored timestamps are only ever pruned once they are older than the whole
window, so the count consulted at each admission is never smaller than the
true in-window count. -/
theorem claim_C6 {U : Type} [DecidableEq U] [Fintype U] (t0 : Int)
    (evs : List (RLEvent U)) (h : chrono t0 evs = true) (u : U) (w : Int) :
    userWinCount u w (admitted (rlInit U t0) evs) ≤ MAX_REQUESTS_PER_USER ∧
    winCount w (admitted (rlInit U t0) evs) ≤ GLOBAL_RATE_LIMIT :=
  admitted_window_bounds t0 evs h u w

/-- C6 witness: the bound evaluated on the concrete eight-event run. -/
theorem claim_C6_witness :
    chrono 41 (staleTrace : List (RLEvent Unit)) = true ∧
    (userWinCount () 40 (admitted (rlInit Unit 41) staleTrace) ≤
        MAX_REQUESTS_PER_USER ∧
      winCount 40 (admitted (rlInit Unit 41) staleTrace) ≤ GLOBAL_RATE_LIMIT) :=
  ⟨by decide, claim_C6 41 staleTrace (by decide) () 40⟩

/-- C7 (amended): a request rejected by the public tier's validator
(missing or empty prompt, over-long prompt, non-integer or out-of-range
dimensions or step count) is answered 400 with the validator's
human-readable reason; a prompt violating the restricted character set,
however, passes the public validator, is rejected by the internal tier, and
surfaces as 500 because `raise_for_status` turns the internal 400 into a
`RequestException`. -/
theorem claim_C7_amended {U : Type} [DecidableEq U] [Fintype U]
    (validU : U → Bool) (u : U) (d : ReqBody) (msg : String) (now : Int)
    (jid : String) (net : NetBehavior) (rs : RateState U) (ai : AIState U) :
    (validate_request_data d = (false, msg) →
      (check_rate_limit now u rs).1.1 = true →
      (generate_image validU (some u) (some d) now jid net rs ai).resp =
        failResp 400 msg) ∧
    (validate_request_data d = (true, "") →
      (check_rate_limit now u rs).1.1 = true →
      d.prompt ≠ none →
      (validate_input validU d u).1 = false →
      (generate_image validU (some u) (some d) now jid NetBehavior.ok
          rs ai).resp.code = 500) := by
  constructor
  · intro hv hall
    unfold generate_image
    simp only [hall, hv]
    rfl
  · intro hv hall hp hvi
    rcases hvi2 : validate_input validU d u with ⟨b, m⟩
    rw [hvi2] at hvi
    cases b with
    | true => simp at hvi
    | false =>
      unfold generate_image
      simp only [hall, hv]
      have hai : (ai_generate validU d u jid now ai).1.code = 400 := by
        unfold ai_generate
        rw [if_neg hp, hvi2]
      have hne : (ai_generate validU d u jid now ai).1.code ≠ 200 := by
        rw [hai]
        omega
      rw [if_pos hne]
      simp [failResp]

/-- C7 amended witness: the prompt-free body is rejected 400 with
"Prompt is required" by the public tier. -/
theorem claim_C7_amended_witness :
    validate_request_data noPromptBody = (false, "Prompt is required") ∧
    (generate_image oneUser (some ()) (some noPromptBody) 3 "j9" .ok
        (rlInit Unit 0) (emptyAI Unit)).resp = failResp 400 "Prompt is required" :=
  ⟨by decide,
    (claim_C7_amended oneUser () noPromptBody "Prompt is required" 3 "j9" .ok
        (rlInit Unit 0) (emptyAI Unit)).1 (by decide) (by decide)⟩

/-- C8: a job's status, once read as `completed` or `failed`, is returned
unchanged by every subsequent read, over any well-formed job-store trace
(fresh ids at creation, one terminal write per job): the terminal record
written by `process_job` is never modified again, so the order
`completed → failed` (or the reverse) can never be observed. -/
theorem claim_C8 {U : Type} (l₁ l₂ : List (JSEvent U)) (jid : String)
    (s : String) (hwf : jsWF (l₁ ++ l₂))
    (hread : (get_job_status jid (jsRun (emptyAI U) l₁)).status = some s)
    (hterm : s = "completed" ∨ s = "failed") :
    (get_job_status jid (jsRun (emptyAI U) (l₁ ++ l₂))).status = some s := by
  rw [get_job_status_status] at hread ⊢
  cases hl : lookupA (jsRun (emptyAI U) l₁).jobs jid with
  | none =>
    rw [hl] at hread
    simp at hread
  | some j =>
    rw [hl] at hread
    simp only [Option.map_some'] at hread
    have hsj : statusStr j.status = s := by
      injection hread
    have hjterm : j.status ≠ .processing := by
      intro hp
      rw [hp] at hsj
      rcases hterm with h1 | h1 <;> rw [h1] at hsj <;> simp [statusStr] at hsj
    have hstable := job_record_stable l₁ l₂ jid j hwf hl hjterm
    rw [hstable]
    rw [← hsj]
    rfl

/-- C8 witness: job `j` fails, then an unrelated job is created; the read
still returns `failed`. -/
theorem claim_C8_witness :
    jsWF (jsPrefix ++ jsSuffix) ∧
    (get_job_status "j" (jsRun (emptyAI Unit) jsPrefix)).status = some "failed" ∧
    (get_job_status "j" (jsRun (emptyAI Unit) (jsPrefix ++ jsSuffix))).status =
      some "failed" :=
  ⟨⟨by decide, by decide⟩, by decide,
    claim_C8 jsPrefix jsSuffix "j" "failed" ⟨by decide, by decide⟩
      (by decide) (Or.inr rfl)⟩

end InfernalForge
